import Mathlib

/-!
Verification of the romyapps useFirestore data-access layer.

Shallow embedding of `src/utils.ts` and the hook module: JavaScript objects
become association lists from field names to values, Firestore snapshots
become lists (queries) or options (documents), asynchronous store calls
become explicit outcome parameters (`Except` values standing for the
resolved or rejected promise), and each hook body becomes a pure function
that also records its observable effects (store calls, warnings, writes).
-/

namespace RomyFirestore

/-- A JavaScript value as it appears in the records this library handles:
strings, integer numbers, booleans, null, the Firestore server-timestamp
sentinel produced by `serverTimestamp()`, and a wall-clock date produced by
`new Date()` (carried as its ISO string). -/
inductive JVal where
  | str (s : String)
  | num (n : Int)
  | bool (b : Bool)
  | nul
  | serverTS
  | date (iso : String)
deriving DecidableEq, Repr

/-- A JavaScript object (or the key/value storage): an association list of
string keys to values, in insertion order, keys unique in practice. -/
abbrev AList (β : Type) := List (String × β)

/-- A document record: field names mapped to JS values. -/
abbrev JRecord := AList JVal

/-- The key/value storage backing read statistics (string to string). -/
abbrev Store := AList String

/-- Lookup of a key, returning the first binding (JS property access /
`storage.getItem`, with `none` for `null`). -/
def alGet {β : Type} : AList β → String → Option β
  | [], _ => none
  | (k', v) :: rest, k => if k' = k then some v else alGet rest k

/-- JS property assignment / `storage.setItem`: an existing key keeps its
position and receives the new value, a fresh key is appended. -/
def alSet {β : Type} : AList β → String → β → AList β
  | [], k, v => [(k, v)]
  | (k', v') :: rest, k, v =>
      if k' = k then (k, v) :: rest else (k', v') :: alSet rest k v

/-- `storage.removeItem`: drop every binding of the key. -/
def alRemove {β : Type} : AList β → String → AList β
  | [], _ => []
  | (k', v) :: rest, k =>
      if k' = k then alRemove rest k else (k', v) :: alRemove rest k

/-- Whether the object has the key (`k in obj`). -/
def hasKey {β : Type} (r : AList β) (k : String) : Bool :=
  (alGet r k).isSome

/-- JS object spread `{ ...base, ...upd }`: fields of `upd` applied left to
right over `base`, overriding in place or appending. -/
def jsSpread {β : Type} (base upd : AList β) : AList β :=
  upd.foldl (fun acc p => alSet acc p.1 p.2) base

/-! Firestore snapshots and the cache-mode dispatch of `src/utils.ts`. -/

/-- The four cache-mode preferences (`PreferCacheMode` in `types.ts`). -/
inductive PreferCacheMode where
  | defaultMode
  | cacheFirst
  | cacheOnly
  | serverOnly
deriving DecidableEq, Repr

/-- A query snapshot: the returned documents, each a store id paired with its
data. `snapshot.empty` is emptiness of this list, `snapshot.docs` the list,
`snapshot.size` its length. -/
abbrev QuerySnap := List (String × JRecord)

/-- A document snapshot: `none` when `snapshot.exists()` is false, otherwise
the id and data. -/
abbrev DocSnap := Option (String × JRecord)

/-- Conversion `convertQuerySnapshot`: each document becomes
`\x7b id: doc.id, ...doc.data() \x7d`. -/
def convertQuerySnapshot (snapshot : QuerySnap) : List JRecord :=
  snapshot.map (fun d => jsSpread [("id", JVal.str d.1)] d.2)

/-- Conversion `convertDocSnapshot`: `null` when the document does not
exist, else `\x7b id: snapshot.id, ...snapshot.data() \x7d`. -/
def convertDocSnapshot (snapshot : DocSnap) : Option JRecord :=
  snapshot.map (fun d => jsSpread [("id", JVal.str d.1)] d.2)

/-- Observable outcome of one `getDocsByMode` call: the settled promise and
how many times each underlying read path ran (`getDocsFromCache`,
`getDocsFromServer`, plain `getDocs`). -/
structure QueryTrace where
  result : Except String QuerySnap
  cacheCalls : Nat
  serverCalls : Nat
  combinedCalls : Nat

/-- Embedding of `getDocsByMode`. The underlying store calls are passed as
their settled outcomes (`cacheRes` for `getDocsFromCache(q)`, `serverRes`
for `getDocsFromServer(q)`, `combinedRes` for `getDocs(q)`); the body
branches exactly as the switch in `src/utils.ts` does, the cache-first arm
returning a non-empty cache snapshot, and otherwise (empty snapshot or
rejected cache read) falling through to the server read. -/
def getDocsByMode (mode : PreferCacheMode)
    (cacheRes serverRes combinedRes : Except String QuerySnap) : QueryTrace :=
  match mode with
  | .cacheOnly =>
      { result := cacheRes, cacheCalls := 1, serverCalls := 0, combinedCalls := 0 }
  | .serverOnly =>
      { result := serverRes, cacheCalls := 0, serverCalls := 1, combinedCalls := 0 }
  | .cacheFirst =>
      match cacheRes with
      | .ok snap =>
          if snap.isEmpty then
            { result := serverRes, cacheCalls := 1, serverCalls := 1, combinedCalls := 0 }
          else
            { result := .ok snap, cacheCalls := 1, serverCalls := 0, combinedCalls := 0 }
      | .error _ =>
          { result := serverRes, cacheCalls := 1, serverCalls := 1, combinedCalls := 0 }
  | .defaultMode =>
      { result := combinedRes, cacheCalls := 0, serverCalls := 0, combinedCalls := 1 }

/-- Observable outcome of one `getDocByMode` call. -/
structure DocTrace where
  result : Except String DocSnap
  cacheCalls : Nat
  serverCalls : Nat
  combinedCalls : Nat

/-- Embedding of `getDocByMode`: as `getDocsByMode`, but the cache-first arm
keeps the cache snapshot only when `snap.exists()` holds. -/
def getDocByMode (mode : PreferCacheMode)
    (cacheRes serverRes combinedRes : Except String DocSnap) : DocTrace :=
  match mode with
  | .cacheOnly =>
      { result := cacheRes, cacheCalls := 1, serverCalls := 0, combinedCalls := 0 }
  | .serverOnly =>
      { result := serverRes, cacheCalls := 0, serverCalls := 1, combinedCalls := 0 }
  | .cacheFirst =>
      match cacheRes with
      | .ok (some d) =>
          { result := .ok (some d), cacheCalls := 1, serverCalls := 0, combinedCalls := 0 }
      | .ok none =>
          { result := serverRes, cacheCalls := 1, serverCalls := 1, combinedCalls := 0 }
      | .error _ =>
          { result := serverRes, cacheCalls := 1, serverCalls := 1, combinedCalls := 0 }
  | .defaultMode =>
      { result := combinedRes, cacheCalls := 0, serverCalls := 0, combinedCalls := 1 }

/-! The query constraint builder of `src/utils.ts`. -/

/-- Sort direction of an `OrderByClause`. -/
inductive Direction where
  | asc
  | desc
deriving DecidableEq, Repr

/-- A `WhereClause`: field, operator (kept as its string form) and value. -/
structure WhereClause where
  field : String
  operator : String
  value : JVal
deriving DecidableEq, Repr

/-- An `OrderByClause`; the direction is optional in the source type. -/
structure OrderByClause where
  field : String
  direction : Option Direction
deriving DecidableEq, Repr

/-- Cursor type of a `CursorConfig`. -/
inductive CursorType where
  | after
  | before
deriving DecidableEq, Repr

/-- A `CursorConfig`: a cursor type together with a document snapshot
reference that may be null; the opaque snapshot is modelled by a number. -/
structure CursorConfig where
  type : CursorType
  doc : Option Nat
deriving DecidableEq, Repr

/-- `CollectionOptions`: the declarative query descriptor. Every field is
optional; the filter list field `where` is a reserved word in Lean, hence
`whereClauses`. -/
structure CollectionOptions where
  whereClauses : Option (List WhereClause)
  orderByClauses : Option (List OrderByClause)
  limit : Option Int
  cursor : Option CursorConfig
deriving DecidableEq, Repr

/-- A native Firestore query constraint as produced by `where`, `orderBy`,
`limit`, `startAfter` and `endBefore`. -/
inductive QueryConstraint where
  | whereC (field operator : String) (value : JVal)
  | orderByC (field : String) (direction : Direction)
  | limitC (n : Int)
  | startAfterC (doc : Nat)
  | endBeforeC (doc : Nat)
deriving DecidableEq, Repr

/-- Embedding of `buildConstraints`: push one `where` constraint per filter
clause, then one `orderBy` per sort clause defaulting the direction to
ascending, then a `limit` when the limit is a number, then `startAfter` or
`endBefore` when a cursor with a non-null document reference is present. -/
def buildConstraints (opts : Option CollectionOptions) : List QueryConstraint :=
  match opts with
  | none => []
  | some o =>
      let c1 : List QueryConstraint :=
        match o.whereClauses with
        | some ws => ws.map (fun cl => .whereC cl.field cl.operator cl.value)
        | none => []
      let c2 := c1 ++
        (match o.orderByClauses with
         | some os => os.map (fun ob => .orderByC ob.field (ob.direction.getD .asc))
         | none => [])
      let c3 := c2 ++ (match o.limit with | some n => [.limitC n] | none => [])
      let c4 := c3 ++
        (match o.cursor with
         | some cur =>
             match cur.type, cur.doc with
             | .after, some d => [.startAfterC d]
             | .before, some d => [.endBeforeC d]
             | _, none => []
         | none => [])
      c4

/-- The constraint sequence exactly as the specification describes it: the
filter constraints in input order, then the sort constraints in input
order with a missing direction defaulting to ascending, then a row limit
when present, then one positional constraint when a cursor with a non-null
reference is present (a null reference emits nothing). -/
def specConstraintOrder (o : CollectionOptions) : List QueryConstraint :=
  ((o.whereClauses.getD []).map (fun cl => .whereC cl.field cl.operator cl.value))
    ++ ((o.orderByClauses.getD []).map
          (fun ob => .orderByC ob.field (ob.direction.getD .asc)))
    ++ ((o.limit.map (fun n => [QueryConstraint.limitC n])).getD [])
    ++ ((o.cursor.map (fun cur =>
          match cur.doc with
          | none => []
          | some d =>
              match cur.type with
              | .after => [QueryConstraint.startAfterC d]
              | .before => [QueryConstraint.endBeforeC d])).getD [])

/-! The read-statistics functions of `src/utils.ts`. -/

/-- The storage key holding the read count of a collection. -/
def readCountKey (collectionName : String) : String :=
  "@romyapps:readCount::" ++ collectionName

/-- The storage key holding the last-fetched timestamp of a collection. -/
def lastFetchedKey (collectionName : String) : String :=
  "@romyapps:lastFetched::" ++ collectionName

/-- A JavaScript number as this module observes it: NaN, the two
infinities, or a finite value represented exactly as a scaled decimal
`num / 10 ^ den10` (canonical: `num` not divisible by 10 unless
`den10 = 0`). The representation is exact rational-valued arithmetic on
decimals; IEEE-754 double rounding and overflow are deliberately not
modelled, and no theorem below covers an input where they would bite. -/
inductive JSNum where
  | nan
  | inf
  | negInf
  | fin (num : Int) (den10 : Nat)
deriving DecidableEq, Repr

/-- Canonicalize a scaled decimal by stripping factors of 10. -/
def canonFin : Int → Nat → JSNum
  | m, 0 => JSNum.fin m 0
  | m, d + 1 => if m % 10 = 0 then canonFin (m / 10) d else JSNum.fin m (d + 1)

/-- Whether a character is whitespace for JS string-to-number conversion
(the ECMAScript WhiteSpace and LineTerminator characters). -/
def jsWhitespaceChar (c : Char) : Bool :=
  let n := c.toNat
  n = 0x20 || n = 0x09 || n = 0x0A || n = 0x0B || n = 0x0C || n = 0x0D ||
  n = 0xA0 || n = 0x1680 || (0x2000 ≤ n && n ≤ 0x200A) || n = 0x202F ||
  n = 0x205F || n = 0x3000 || n = 0xFEFF || n = 0x2028 || n = 0x2029

/-- Value of a digit character in bases up to 16. -/
def hexDigitVal (c : Char) : Nat :=
  if c.toNat ≤ 57 then c.toNat - 48
  else if c.toNat ≤ 70 then c.toNat - 55
  else c.toNat - 87

/-- Whether a character is a hexadecimal digit. -/
def isHexDigitChar (c : Char) : Bool :=
  c.isDigit || ('a' ≤ c && c ≤ 'f') || ('A' ≤ c && c ≤ 'F')

/-- Value of a digit list in the given base. -/
def digitsValBase (b : Nat) (cs : List Char) : Nat :=
  cs.foldl (fun a c => a * b + hexDigitVal c) 0

/-- The optional exponent part of a decimal literal: the empty remainder
means exponent 0; otherwise `e`/`E`, an optional sign and at least one
digit must consume the whole remainder. -/
def parseExpPart : List Char → Option Int
  | [] => some 0
  | c :: r =>
      if c = 'e' || c = 'E' then
        match r with
        | '+' :: r2 =>
            let s := r2.span Char.isDigit
            if s.1.isEmpty || !s.2.isEmpty then none
            else some ((digitsValBase 10 s.1 : Nat) : Int)
        | '-' :: r2 =>
            let s := r2.span Char.isDigit
            if s.1.isEmpty || !s.2.isEmpty then none
            else some (-((digitsValBase 10 s.1 : Nat) : Int))
        | _ =>
            let s := r.span Char.isDigit
            if s.1.isEmpty || !s.2.isEmpty then none
            else some ((digitsValBase 10 s.1 : Nat) : Int)
      else none

/-- An unsigned decimal literal `digits [. digits] [exp]` or
`. digits [exp]`, consuming the whole input: mantissa digits value,
number of fraction digits, exponent. -/
def parseUnsignedDec (cs : List Char) : Option (Nat × Nat × Int) :=
  let ip := cs.span Char.isDigit
  if ip.1.isEmpty then
    match ip.2 with
    | '.' :: r2 =>
        let fp := r2.span Char.isDigit
        if fp.1.isEmpty then none
        else (parseExpPart fp.2).map (fun e => (digitsValBase 10 fp.1, fp.1.length, e))
    | _ => none
  else
    match ip.2 with
    | '.' :: r2 =>
        let fp := r2.span Char.isDigit
        (parseExpPart fp.2).map (fun e =>
          (digitsValBase 10 ip.1 * 10 ^ fp.1.length + digitsValBase 10 fp.1,
            fp.1.length, e))
    | _ => (parseExpPart ip.2).map (fun e => (digitsValBase 10 ip.1, 0, e))

/-- Scale a signed mantissa with `f` fraction digits by `10 ^ e` into a
canonical finite JS number. -/
def applyExp (m : Int) (f : Nat) (e : Int) : JSNum :=
  let t : Int := e - (f : Int)
  if 0 ≤ t then canonFin (m * (10 : Int) ^ t.toNat) 0
  else canonFin m (-t).toNat

/-- A signed remainder after the optional sign of a decimal literal:
`Infinity` exactly, or an unsigned decimal literal; anything else is
NaN (the non-decimal `0x`-style literals admit no sign). -/
def parseSignedTail (cs : List Char) (sign : Int) : JSNum :=
  if cs = "Infinity".data then
    if sign = 1 then JSNum.inf else JSNum.negInf
  else
    match parseUnsignedDec cs with
    | some (m, f, e) => applyExp (sign * (m : Nat)) f e
    | none => JSNum.nan

/-- A non-decimal integer literal body: all remaining characters must be
digits of the base. -/
def parseRadixTail (digitOk : Char → Bool) (b : Nat) (cs : List Char) : JSNum :=
  let s := cs.span digitOk
  if s.1.isEmpty || !s.2.isEmpty then JSNum.nan
  else canonFin ((digitsValBase b s.1 : Nat) : Int) 0

/-- JavaScript `Number(s)` on a string, per the ECMAScript
string-to-number grammar: surrounding whitespace is stripped; the empty
remainder is 0; an optionally signed decimal literal (integer part,
optional fraction, optional exponent) or `Infinity`, or an unsigned
`0x`/`0o`/`0b` literal, evaluates to its exact value; anything else is
NaN. Values are exact scaled decimals: double rounding and overflow are
not modelled. -/
def jsNumber (s : String) : JSNum :=
  let cs := (((s.data.dropWhile jsWhitespaceChar).reverse.dropWhile
    jsWhitespaceChar).reverse)
  match cs with
  | [] => JSNum.fin 0 0
  | '+' :: rest => parseSignedTail rest 1
  | '-' :: rest => parseSignedTail rest (-1)
  | '0' :: 'x' :: rest => parseRadixTail isHexDigitChar 16 rest
  | '0' :: 'X' :: rest => parseRadixTail isHexDigitChar 16 rest
  | '0' :: 'o' :: rest => parseRadixTail (fun c => '0' ≤ c && c ≤ '7') 8 rest
  | '0' :: 'O' :: rest => parseRadixTail (fun c => '0' ≤ c && c ≤ '7') 8 rest
  | '0' :: 'b' :: rest => parseRadixTail (fun c => c = '0' || c = '1') 2 rest
  | '0' :: 'B' :: rest => parseRadixTail (fun c => c = '0' || c = '1') 2 rest
  | other => parseSignedTail other 1

/-- JavaScript addition of 1 (`count + 1`): NaN and the infinities
absorb; a finite scaled decimal adds exactly. -/
def jsAdd1 : JSNum → JSNum
  | JSNum.nan => JSNum.nan
  | JSNum.inf => JSNum.inf
  | JSNum.negInf => JSNum.negInf
  | JSNum.fin m d => canonFin (m + (10 : Int) ^ d) d

/-- JavaScript `String(n)` on a JS number: "NaN" for NaN, "Infinity" and
"-Infinity", the decimal numeral for an integer, and the plain decimal
point notation for a finite fraction (the exponent notation JS switches
to at extreme magnitudes is not modelled, and no theorem covers such an
input). -/
def jsNumToString : JSNum → String
  | JSNum.nan => "NaN"
  | JSNum.inf => "Infinity"
  | JSNum.negInf => "-Infinity"
  | JSNum.fin m 0 => toString m
  | JSNum.fin m (d + 1) =>
      let ds := (toString m.natAbs).data
      let padded := List.replicate (d + 2 - ds.length) '0' ++ ds
      let intLen := padded.length - (d + 1)
      (if m < 0 then "-" else "") ++ String.mk (padded.take intLen) ++ "." ++
        String.mk (padded.drop intLen)

/-- Result of `recordReadStats`: the storage after the call, and the
`updated` count it returns (a JS number, possibly NaN). -/
structure RecordReadOut where
  store : Store
  updated : JSNum
deriving DecidableEq, Repr

/-- Embedding of `recordReadStats` on a live storage: read the count under
the read-count key defaulting the absent value to the string "0", apply
`Number`, add 1 in JS arithmetic (NaN propagates), write the count string
back, write the current ISO timestamp (passed as `nowIso`, the value of
`new Date().toISOString()`) under the last-fetched key, and return the
updated count. -/
def recordReadStats (st : Store) (collectionName : String) (nowIso : String) :
    RecordReadOut :=
  let key := readCountKey collectionName
  let lastKey := lastFetchedKey collectionName
  let count := jsNumber ((alGet st key).getD "0")
  let updated := jsAdd1 count
  let st1 := alSet st key (jsNumToString updated)
  let st2 := alSet st1 lastKey nowIso
  { store := st2, updated := updated }

/-- The statistics record returned by `getCollectionStats`: a JS number
(possibly NaN) and a nullable timestamp string. -/
structure Stats where
  readCount : JSNum
  lastFetched : Option String
deriving DecidableEq, Repr

/-- Embedding of `getCollectionStats` on a live storage. -/
def getCollectionStats (st : Store) (collectionName : String) : Stats :=
  { readCount := jsNumber ((alGet st (readCountKey collectionName)).getD "0"),
    lastFetched := alGet st (lastFetchedKey collectionName) }

/-- Embedding of `clearCollectionStats` on a live storage: remove both
keys of the collection. -/
def clearCollectionStats (st : Store) (collectionName : String) : Store :=
  alRemove (alRemove st (readCountKey collectionName)) (lastFetchedKey collectionName)

/-- JavaScript `startsWith`, modelled on the character lists. -/
def jsStartsWith (s p : String) : Bool :=
  p.data.isPrefixOf s.data

/-- Whether a storage key belongs to the statistics namespace: it starts
with the read-count or the last-fetched key namespace. -/
def statsKey (k : String) : Bool :=
  jsStartsWith k "@romyapps:readCount::" || jsStartsWith k "@romyapps:lastFetched::"

/-- Embedding of `clearAllCollectionStats` on a live storage: scan all
keys in order, collect those in the statistics namespace, remove each, and
return the new storage with the number removed. -/
def clearAllCollectionStats (st : Store) : Store × Nat :=
  let toRemove := (st.map Prod.fst).filter statsKey
  (toRemove.foldl alRemove st, toRemove.length)

/-- The default log-collection resolver `defaultResolveLogCollection`. -/
def defaultResolveLogCollection (name : String) : String :=
  name ++ "_log"

/-! The write hooks (`useAddDocument`, `useUpdateDocument`,
`useDeleteDocument`): each `mutationFn` becomes a pure function over the
hook options, the settled outcomes of the store calls it awaits, and the
input, producing the mutation result together with the observable effects
(warnings sent to the logger, primary store writes, audit-log writes). -/

/-- One audit-log entry as assembled by the hooks: the object literal
spread over the payload, broken into its named fields. `baseFields` is the
spread payload (empty for a delete), `modifiedOn` carries the wall-clock
ISO date of `new Date()`, `timestamp` the server-timestamp sentinel. -/
structure AuditWrite where
  logCollection : String
  baseFields : JRecord
  originalDocId : JVal
  action : String
  modifiedBy : Option String
  modifiedOn : String
  previousData : Option JRecord
  deletedData : Option JRecord
deriving DecidableEq, Repr

/-- Resolve the log collection name:
`cfg.logging?.resolveLogCollection?.(name) ?? defaultResolveLogCollection(name)`. -/
def resolveLogCollectionName (resolver : Option (String → String))
    (collectionName : String) : String :=
  match resolver with
  | some f => f collectionName
  | none => defaultResolveLogCollection collectionName

/-- Outcome of one `useAddDocument` mutation call. -/
structure AddOutcome where
  result : Except String JRecord
  warnings : List String
  primaryWrites : List (String × JRecord)
  auditWrites : List AuditWrite

/-- Embedding of the `useAddDocument` mutation function. Parameters mirror
the closure: the collection name, the optional `beforeSave` transform, the
`enableLogging` flag, the optional log-collection resolver, the resolved
user id (`cfg.getUserId?.() ?? null`), and the wall-clock instant; the
store calls appear as settled outcomes, `primaryRes` for the main `addDoc`
(rejected, or resolved with the new document id) and `auditRes` for the
audit-log `addDoc`. The body applies `beforeSave` when present, spreads
the server timestamps onto the payload, performs the primary write, builds
the result from the new id spread with the ORIGINAL input `data`, then if
logging is enabled warns when no user id is available and attempts the
audit write inside a catch that only warns on failure. -/
def runAddMutation (collectionName : String)
    (beforeSave : Option (JRecord → JRecord)) (enableLogging : Bool)
    (resolver : Option (String → String)) (userId : Option String)
    (nowIso : String) (primaryRes : Except String String)
    (auditRes : Except String Unit) (data : JRecord) : AddOutcome :=
  let base := match beforeSave with
    | some f => f data
    | none => data
  let payload := jsSpread base [("createdAt", JVal.serverTS), ("updatedAt", JVal.serverTS)]
  match primaryRes with
  | .error e =>
      { result := .error e, warnings := [],
        primaryWrites := [(collectionName, payload)], auditWrites := [] }
  | .ok newId =>
      let result := jsSpread [("id", JVal.str newId)] data
      if enableLogging then
        let warns0 := if userId.isNone then ["logging enabled but no user id"] else []
        let logCol := resolveLogCollectionName resolver collectionName
        let entry : AuditWrite :=
          { logCollection := logCol, baseFields := payload,
            originalDocId := JVal.str newId, action := "CREATE",
            modifiedBy := userId, modifiedOn := nowIso,
            previousData := none, deletedData := none }
        match auditRes with
        | .ok _ =>
            { result := .ok result, warnings := warns0,
              primaryWrites := [(collectionName, payload)], auditWrites := [entry] }
        | .error _ =>
            { result := .ok result, warnings := warns0 ++ ["log create failed"],
              primaryWrites := [(collectionName, payload)], auditWrites := [entry] }
      else
        { result := .ok result, warnings := [],
          primaryWrites := [(collectionName, payload)], auditWrites := [] }

/-- Outcome of one `useUpdateDocument` mutation call; `updateWrites`
records each `updateDoc` as (collection, document id value, payload). -/
structure UpdateOutcome where
  result : Except String JRecord
  warnings : List String
  updateWrites : List (String × JVal × JRecord)
  auditWrites : List AuditWrite

/-- Embedding of the `useUpdateDocument` mutation function. The input
`data` is destructured into its `id` and the remaining fields; the payload
spreads `updatedAt` onto the (optionally transformed) remainder. When
logging with `includePreviousData` is enabled, the pre-update snapshot is
fetched (outcome `preReadRes`) inside a catch that only warns; then
`updateDoc` runs (outcome `updateRes`; a rejection is the outcome of the
mutation); then, when logging is enabled, the audit write is attempted
inside a catch that only warns; finally the ORIGINAL input `data` is
returned unchanged. -/
def runUpdateMutation (collectionName : String)
    (beforeSave : Option (JRecord → JRecord)) (enableLogging : Bool)
    (includePreviousData : Bool) (resolver : Option (String → String))
    (userId : Option String) (nowIso : String)
    (preReadRes : Except String DocSnap) (updateRes : Except String Unit)
    (auditRes : Except String Unit) (data : JRecord) : UpdateOutcome :=
  let idVal := (alGet data "id").getD JVal.nul
  let update := data.filter (fun p => p.1 != "id")
  let base := match beforeSave with
    | some f => f update
    | none => update
  let payload := jsSpread base [("updatedAt", JVal.serverTS)]
  let prev : Option JRecord × List String :=
    if enableLogging && includePreviousData then
      match preReadRes with
      | .ok (some d) => (some (jsSpread [("id", JVal.str d.1)] d.2), [])
      | .ok none => (none, [])
      | .error _ => (none, ["failed to fetch previous for logging"])
    else (none, [])
  match updateRes with
  | .error e =>
      { result := .error e, warnings := prev.2,
        updateWrites := [(collectionName, idVal, payload)], auditWrites := [] }
  | .ok _ =>
      if enableLogging then
        let logCol := resolveLogCollectionName resolver collectionName
        let entry : AuditWrite :=
          { logCollection := logCol, baseFields := payload,
            originalDocId := idVal, action := "UPDATE",
            modifiedBy := userId, modifiedOn := nowIso,
            previousData := prev.1, deletedData := none }
        match auditRes with
        | .ok _ =>
            { result := .ok data, warnings := prev.2,
              updateWrites := [(collectionName, idVal, payload)], auditWrites := [entry] }
        | .error _ =>
            { result := .ok data, warnings := prev.2 ++ ["log update failed"],
              updateWrites := [(collectionName, idVal, payload)], auditWrites := [entry] }
      else
        { result := .ok data, warnings := prev.2,
          updateWrites := [(collectionName, idVal, payload)], auditWrites := [] }

/-- Outcome of one `useDeleteDocument` mutation call; `deletes` records
each `deleteDoc` as (collection, document id). -/
structure DeleteOutcome where
  result : Except String String
  warnings : List String
  deletes : List (String × String)
  auditWrites : List AuditWrite

/-- Embedding of the `useDeleteDocument` mutation function. The pre-delete
snapshot fetch (outcome `preReadRes`) runs inside a catch that only warns,
its data feeding `deletedData`; then `deleteDoc` runs (outcome
`deleteRes`); then, when logging is enabled, the audit write is attempted
inside a catch that only warns; finally the input id is returned. -/
def runDeleteMutation (collectionName : String) (enableLogging : Bool)
    (resolver : Option (String → String)) (userId : Option String)
    (nowIso : String) (preReadRes : Except String DocSnap)
    (deleteRes : Except String Unit) (auditRes : Except String Unit)
    (id : String) : DeleteOutcome :=
  let prev : Option JRecord × List String :=
    match preReadRes with
    | .ok (some d) => (some (jsSpread [("id", JVal.str d.1)] d.2), [])
    | .ok none => (none, [])
    | .error _ => (none, ["pre-delete fetch failed"])
  match deleteRes with
  | .error e =>
      { result := .error e, warnings := prev.2,
        deletes := [(collectionName, id)], auditWrites := [] }
  | .ok _ =>
      if enableLogging then
        let logCol := resolveLogCollectionName resolver collectionName
        let entry : AuditWrite :=
          { logCollection := logCol, baseFields := [],
            originalDocId := JVal.str id, action := "DELETE",
            modifiedBy := userId, modifiedOn := nowIso,
            previousData := none, deletedData := prev.1 }
        match auditRes with
        | .ok _ =>
            { result := .ok id, warnings := prev.2,
              deletes := [(collectionName, id)], auditWrites := [entry] }
        | .error _ =>
            { result := .ok id, warnings := prev.2 ++ ["log delete failed"],
              deletes := [(collectionName, id)], auditWrites := [entry] }
      else
        { result := .ok id, warnings := prev.2,
          deletes := [(collectionName, id)], auditWrites := [] }

/-! The single-document read hook `useDocument`. -/

/-- JavaScript truthiness of the nullable document id: null, undefined and
the empty string are falsy. -/
def jsTruthyStr : Option String → Bool
  | none => false
  | some s => !s.isEmpty

/-- Observable outcome of one `useDocument` render and settle: whether the
query function ran at all, how many `getDocByMode` store reads it issued,
and the data it produced (`none` when the query is disabled and never
fetches; otherwise the settled query-function outcome, whose value is the
converted snapshot and in particular `none` for "no data"). -/
structure UseDocTrace where
  fetched : Bool
  storeReads : Nat
  data : Option (Except String (Option JRecord))

/-- Embedding of `useDocument`: the query is enabled by `!!documentId`
unless the caller-supplied query options override `enabled`; a disabled
query never runs and has no data. The query function itself re-checks
`!documentId` and returns null without touching the store; otherwise it
performs the `getDocByMode` read (settled outcome `docRead`) and converts
the snapshot. -/
def runUseDocument (documentId : Option String) (enabledOverride : Option Bool)
    (docRead : Except String DocSnap) : UseDocTrace :=
  let enabled := enabledOverride.getD (jsTruthyStr documentId)
  if enabled then
    if jsTruthyStr documentId then
      { fetched := true, storeReads := 1,
        data := some (docRead.map convertDocSnapshot) }
    else
      { fetched := true, storeReads := 0, data := some (.ok none) }
  else
    { fetched := false, storeReads := 0, data := none }

/-! Concrete inputs used in the end-to-end scenario of the create
mutation and in the read-statistics counterexample. -/

/-- Characterwise trim of leading and trailing spaces. -/
def trimChars (cs : List Char) : List Char :=
  ((cs.dropWhile (· = ' ')).reverse.dropWhile (· = ' ')).reverse

/-- Whitespace trim of a string, as the scenario beforeSave performs. -/
def jsTrimStr (s : String) : String :=
  String.mk (trimChars s.data)

/-- A beforeSave transform trimming whitespace from the title field. -/
def demoTrimTitle (r : JRecord) : JRecord :=
  r.map (fun p =>
    if p.1 = "title" then
      (p.1, match p.2 with
            | JVal.str s => JVal.str (jsTrimStr s)
            | v => v)
    else p)

/-- The scenario input record: a title with surrounding whitespace and a
completed flag. -/
def demoTodo : JRecord :=
  [("title", JVal.str "  Buy milk  "), ("completed", JVal.bool false)]

/-! Lemmas about the association-list primitives. -/

theorem alGet_alSet_self {β : Type} (st : AList β) (k : String) (v : β) :
    alGet (alSet st k v) k = some v := by
  induction st with
  | nil => simp [alSet, alGet]
  | cons p rest ih =>
      obtain ⟨k', v'⟩ := p
      by_cases h : k' = k <;> simp [alSet, alGet, h, ih]

theorem alGet_alSet_ne {β : Type} (st : AList β) (k k' : String) (v : β)
    (h : k ≠ k') : alGet (alSet st k v) k' = alGet st k' := by
  induction st with
  | nil => simp [alSet, alGet, h]
  | cons p rest ih =>
      obtain ⟨k₀, v₀⟩ := p
      by_cases h0 : k₀ = k
      · subst h0
        simp [alSet, alGet, h]
      · simp [alSet, alGet, h0, ih]

theorem alRemove_eq_filter {β : Type} (st : AList β) (k : String) :
    alRemove st k = st.filter (fun p => p.1 ≠ k) := by
  induction st with
  | nil => simp [alRemove]
  | cons p rest ih =>
      obtain ⟨k', v⟩ := p
      by_cases h : k' = k <;> simp [alRemove, h, ih]

theorem alGet_alRemove_self {β : Type} (st : AList β) (k : String) :
    alGet (alRemove st k) k = none := by
  induction st with
  | nil => simp [alRemove, alGet]
  | cons p rest ih =>
      obtain ⟨k', v⟩ := p
      by_cases h : k' = k <;> simp [alRemove, alGet, h, ih]

theorem alGet_alRemove_ne {β : Type} (st : AList β) (k k' : String)
    (h : k ≠ k') : alGet (alRemove st k') k = alGet st k := by
  induction st with
  | nil => simp [alRemove, alGet]
  | cons p rest ih =>
      obtain ⟨k₀, v₀⟩ := p
      by_cases h0 : k₀ = k'
      · subst h0
        simp [alRemove, alGet, ih, Ne.symm h]
      · simp [alRemove, alGet, h0, ih]

/-! Further lemmas used by the claim theorems. -/

theorem alRemove_alRemove_self {β : Type} (st : AList β) (k : String) :
    alRemove (alRemove st k) k = alRemove st k := by
  induction st with
  | nil => rfl
  | cons p rest ih =>
      obtain ⟨k', v⟩ := p
      by_cases h : k' = k <;> simp [alRemove, h, ih]

theorem alRemove_comm {β : Type} (st : AList β) (a b : String) :
    alRemove (alRemove st a) b = alRemove (alRemove st b) a := by
  induction st with
  | nil => rfl
  | cons p rest ih =>
      obtain ⟨k, v⟩ := p
      by_cases ha : k = a
      · subst ha
        by_cases hb : k = b
        · subst hb
          rfl
        · simp [alRemove, hb, ih]
      · by_cases hb : k = b
        · subst hb
          simp [alRemove, ha, ih]
        · simp [alRemove, ha, hb, ih]

theorem alGet_append {β : Type} (a b : AList β) (k : String) :
    alGet (a ++ b) k = match alGet a k with
      | some v => some v
      | none => alGet b k := by
  induction a with
  | nil => simp [alGet]
  | cons p rest ih =>
      obtain ⟨k', v'⟩ := p
      by_cases h : k' = k <;> simp [alGet, h, ih]

theorem alSet_not_hasKey {β : Type} (st : AList β) (k : String) (v : β)
    (h : hasKey st k = false) : alSet st k v = st ++ [(k, v)] := by
  induction st with
  | nil => rfl
  | cons p rest ih =>
      obtain ⟨k', v'⟩ := p
      by_cases h0 : k' = k
      · exfalso
        simp [hasKey, alGet, h0] at h
      · have hr : hasKey rest k = false := by
          simpa [hasKey, alGet, h0] using h
        simp [alSet, h0, ih hr]

theorem not_hasKey_of_mem {β : Type} (st : AList β) (k : String)
    (h : hasKey st k = false) : ∀ p ∈ st, p.1 ≠ k := by
  induction st with
  | nil => simp
  | cons q rest ih =>
      obtain ⟨k', v'⟩ := q
      by_cases h0 : k' = k
      · exfalso
        simp [hasKey, alGet, h0] at h
      · have hr : hasKey rest k = false := by
          simpa [hasKey, alGet, h0] using h
        intro p hp
        rcases List.mem_cons.mp hp with hp | hp
        · subst hp
          exact h0
        · exact ih hr p hp

theorem jsSpread_disjoint {β : Type} (l : AList β) :
    ∀ base : AList β, (∀ p ∈ l, hasKey base p.1 = false) →
      (l.map Prod.fst).Nodup → jsSpread base l = base ++ l := by
  induction l with
  | nil => intro base _ _; simp [jsSpread]
  | cons q rest ih =>
      intro base h hnd
      obtain ⟨k, v⟩ := q
      have hbk : hasKey base k = false := h (k, v) (by simp)
      have hnd2 : k ∉ rest.map Prod.fst ∧ (rest.map Prod.fst).Nodup := by
        rw [List.map_cons, List.nodup_cons] at hnd
        exact hnd
      have hknotin : k ∉ rest.map Prod.fst := hnd2.1
      have hndr : (rest.map Prod.fst).Nodup := hnd2.2
      have hrest : ∀ p ∈ rest, hasKey (base ++ [(k, v)]) p.1 = false := by
        intro p hp
        have h1 : hasKey base p.1 = false := h p (by simp [hp])
        have h2 : p.1 ≠ k := by
          intro hk
          exact hknotin (hk ▸ List.mem_map_of_mem Prod.fst hp)
        have h3 : alGet base p.1 = none := by
          rcases hg : alGet base p.1 with _ | w
          · rfl
          · exfalso
            simp [hasKey, hg] at h1
        simp [hasKey, alGet_append, h3, alGet, Ne.symm h2]
      have hstep : jsSpread base ((k, v) :: rest) = jsSpread (alSet base k v) rest := rfl
      rw [hstep, alSet_not_hasKey base k v hbk, ih (base ++ [(k, v)]) hrest hndr,
        List.append_assoc]
      rfl

theorem foldl_alRemove_eq_filter {β : Type} (l : List String) :
    ∀ st : AList β, l.foldl alRemove st = st.filter (fun p => !(l.contains p.1)) := by
  induction l with
  | nil => intro st; simp
  | cons k ks ih =>
      intro st
      rw [List.foldl_cons, ih, alRemove_eq_filter, List.filter_filter]
      apply List.filter_congr
      intro p _
      by_cases h : p.1 = k <;> by_cases h2 : ks.contains p.1 <;>
        simp [h, h2, List.contains_cons]

theorem alGet_filter_key {β : Type} (st : AList β) (q : String → Bool)
    (k : String) (h : q k = false) :
    alGet (st.filter (fun p => !(q p.1))) k = alGet st k := by
  induction st with
  | nil => rfl
  | cons p rest ih =>
      obtain ⟨k', v⟩ := p
      by_cases h0 : k' = k
      · subst h0
        simp [List.filter_cons, alGet, h, ih]
      · by_cases h1 : q k' <;> simp [List.filter_cons, alGet, h0, h1, ih]

theorem readCountKey_ne_lastFetchedKey (collectionName : String) :
    readCountKey collectionName ≠ lastFetchedKey collectionName := by
  intro h
  have hlen := congrArg String.length h
  have h1 : ("@romyapps:readCount::" : String).length = 21 := rfl
  have h2 : ("@romyapps:lastFetched::" : String).length = 23 := rfl
  simp [readCountKey, lastFetchedKey, String.length_append, h1, h2] at hlen

/-! Claim theorems. -/

/-- C1: for every query and every single-document read with cache-mode
preference cache-first, if the cache read rejects or returns an empty
result (zero rows for a collection, non-existent for a document), the
server read is performed exactly once and its outcome is returned, the
cache failure never reaching the caller; if the cache read succeeds and is
non-empty, its snapshot is returned and the server read is never
invoked. -/
theorem cacheFirst_fallback_and_short_circuit :
    ∀ (e : String) (server combined : Except String QuerySnap)
      (dserver dcombined : Except String DocSnap)
      (x : String × JRecord) (xs : QuerySnap) (d : String × JRecord),
      (getDocsByMode .cacheFirst (.error e) server combined).result = server ∧
      (getDocsByMode .cacheFirst (.error e) server combined).serverCalls = 1 ∧
      (getDocsByMode .cacheFirst (.ok []) server combined).result = server ∧
      (getDocsByMode .cacheFirst (.ok []) server combined).serverCalls = 1 ∧
      (getDocsByMode .cacheFirst (.ok (x :: xs)) server combined).result = .ok (x :: xs) ∧
      (getDocsByMode .cacheFirst (.ok (x :: xs)) server combined).serverCalls = 0 ∧
      (getDocByMode .cacheFirst (.error e) dserver dcombined).result = dserver ∧
      (getDocByMode .cacheFirst (.error e) dserver dcombined).serverCalls = 1 ∧
      (getDocByMode .cacheFirst (.ok none) dserver dcombined).result = dserver ∧
      (getDocByMode .cacheFirst (.ok none) dserver dcombined).serverCalls = 1 ∧
      (getDocByMode .cacheFirst (.ok (some d)) dserver dcombined).result = .ok (some d) ∧
      (getDocByMode .cacheFirst (.ok (some d)) dserver dcombined).serverCalls = 0 := by
  intro e server combined dserver dcombined x xs d
  refine ⟨rfl, rfl, rfl, rfl, rfl, rfl, rfl, rfl, rfl, rfl, rfl, rfl⟩

/-- C6: for every read with cache-mode preference cache-only, only the
cache path is invoked (the server and combined paths never run) and the
cache outcome, success or failure, is what the caller gets. -/
theorem cacheOnly_never_calls_server :
    ∀ (cache server combined : Except String QuerySnap)
      (dcache dserver dcombined : Except String DocSnap),
      getDocsByMode .cacheOnly cache server combined =
        { result := cache, cacheCalls := 1, serverCalls := 0, combinedCalls := 0 } ∧
      getDocByMode .cacheOnly dcache dserver dcombined =
        { result := dcache, cacheCalls := 1, serverCalls := 0, combinedCalls := 0 } := by
  intro cache server combined dcache dserver dcombined
  exact ⟨rfl, rfl⟩

/-- C5: for every query descriptor, the constraint builder emits all
filter constraints in input order, then all sort constraints in input
order with a missing direction defaulting to ascending, then a row-limit
constraint when a limit is present, then one positional constraint
matching the cursor type when a cursor with a non-null reference is
present, a null cursor reference emitting nothing; and the output is a
deterministic function of the descriptor (it is a pure function). -/
theorem buildConstraints_emits_spec_order :
    ∀ o : CollectionOptions,
      buildConstraints (some o) = specConstraintOrder o ∧ buildConstraints none = [] := by
  intro o
  refine ⟨?_, rfl⟩
  obtain ⟨w, ob, lim, cur⟩ := o
  rcases cur with _ | ⟨t, dc⟩
  · cases w <;> cases ob <;> cases lim <;>
      simp [buildConstraints, specConstraintOrder]
  · cases t <;> rcases dc with _ | dc <;> cases w <;> cases ob <;> cases lim <;>
      simp [buildConstraints, specConstraintOrder]

/-- C7: a single-document read invoked with an absent document identifier
issues no store call, whether or not the caller overrides the enabled
flag, and reports no data (the disabled query produces nothing, and the
query function short-circuits to a null result) rather than an error. -/
theorem useDocument_absent_id_no_store_call :
    ∀ (enabledOverride : Option Bool) (docRead : Except String DocSnap),
      (runUseDocument none enabledOverride docRead).storeReads = 0 ∧
      ((runUseDocument none enabledOverride docRead).data = none ∨
        (runUseDocument none enabledOverride docRead).data = some (.ok none)) := by
  intro enabledOverride docRead
  rcases enabledOverride with _ | b
  · simp [runUseDocument, jsTruthyStr]
  · cases b <;> simp [runUseDocument, jsTruthyStr]

/-- C10: the update mutation, when the store update succeeds, returns
exactly the caller input record: identifier included, the beforeSave
transform not applied, the attached updatedAt timestamp absent, whatever
the logging configuration and however the best-effort pre-read and the
audit write settle. -/
theorem updateMutation_returns_original_input :
    ∀ (collectionName : String) (beforeSave : Option (JRecord → JRecord))
      (enableLogging includePreviousData : Bool)
      (resolver : Option (String → String)) (userId : Option String)
      (nowIso : String) (preReadRes : Except String DocSnap)
      (auditRes : Except String Unit) (data : JRecord),
      (runUpdateMutation collectionName beforeSave enableLogging
          includePreviousData resolver userId nowIso preReadRes
          (.ok ()) auditRes data).result = .ok data := by
  intro collectionName beforeSave enableLogging includePreviousData resolver
    userId nowIso preReadRes auditRes data
  cases enableLogging <;> rcases auditRes with e | u <;>
    simp [runUpdateMutation]

/-- C9: for every storage state and collection, clearing the statistics
and immediately reading them yields a zero read count and a null
last-fetched timestamp, and clearing twice leaves the same storage as
clearing once. -/
theorem clearStats_getStats_and_idempotent :
    ∀ (st : Store) (collectionName : String),
      getCollectionStats (clearCollectionStats st collectionName) collectionName =
        { readCount := JSNum.fin 0 0, lastFetched := none } ∧
      clearCollectionStats (clearCollectionStats st collectionName) collectionName =
        clearCollectionStats st collectionName := by
  intro st collectionName
  constructor
  · have h1 : alGet (clearCollectionStats st collectionName)
        (readCountKey collectionName) = none := by
      unfold clearCollectionStats
      rw [alGet_alRemove_ne _ _ _ (readCountKey_ne_lastFetchedKey collectionName),
        alGet_alRemove_self]
    have h2 : alGet (clearCollectionStats st collectionName)
        (lastFetchedKey collectionName) = none :=
      alGet_alRemove_self _ _
    have h0 : jsNumber "0" = JSNum.fin 0 0 := by decide
    simp [getCollectionStats, h1, h2, h0]
  · unfold clearCollectionStats
    rw [alRemove_comm (alRemove st (readCountKey collectionName))
        (lastFetchedKey collectionName) (readCountKey collectionName),
      alRemove_alRemove_self, alRemove_alRemove_self]

/-- C4: for the create, update and delete mutations, the outcome of the
audit-log write never changes the mutation result (the result with a
rejected audit write equals the result with a resolved one, for any
logging configuration), and when logging is enabled and the primary
mutation succeeded, a rejected audit write is reported to the logger as
the corresponding warning. -/
theorem auditLogFailure_never_affects_mutation :
    ∀ (collectionName : String) (beforeSave : Option (JRecord → JRecord))
      (enableLogging includePreviousData : Bool)
      (resolver : Option (String → String)) (userId : Option String)
      (nowIso newId e : String) (data : JRecord)
      (preRead preDel : Except String DocSnap) (id : String),
      (runAddMutation collectionName beforeSave enableLogging resolver userId
          nowIso (.ok newId) (.error e) data).result =
        (runAddMutation collectionName beforeSave enableLogging resolver userId
          nowIso (.ok newId) (.ok ()) data).result ∧
      "log create failed" ∈ (runAddMutation collectionName beforeSave true
          resolver userId nowIso (.ok newId) (.error e) data).warnings ∧
      (runUpdateMutation collectionName beforeSave enableLogging
          includePreviousData resolver userId nowIso preRead (.ok ())
          (.error e) data).result =
        (runUpdateMutation collectionName beforeSave enableLogging
          includePreviousData resolver userId nowIso preRead (.ok ())
          (.ok ()) data).result ∧
      "log update failed" ∈ (runUpdateMutation collectionName beforeSave true
          includePreviousData resolver userId nowIso preRead (.ok ())
          (.error e) data).warnings ∧
      (runDeleteMutation collectionName enableLogging resolver userId nowIso
          preDel (.ok ()) (.error e) id).result =
        (runDeleteMutation collectionName enableLogging resolver userId nowIso
          preDel (.ok ()) (.ok ()) id).result ∧
      "log delete failed" ∈ (runDeleteMutation collectionName true resolver
          userId nowIso preDel (.ok ()) (.error e) id).warnings := by
  intro collectionName beforeSave enableLogging includePreviousData resolver
    userId nowIso newId e data preRead preDel id
  refine ⟨?_, ?_, ?_, ?_, ?_, ?_⟩
  · cases enableLogging <;> rcases userId with _ | u <;> simp [runAddMutation]
  · rcases userId with _ | u <;> simp [runAddMutation]
  · cases enableLogging <;> cases includePreviousData <;>
      rcases preRead with e' | (_ | d) <;> simp [runUpdateMutation]
  · cases includePreviousData <;> rcases preRead with e' | (_ | d) <;>
      simp [runUpdateMutation]
  · cases enableLogging <;> rcases preDel with e' | (_ | d) <;>
      simp [runDeleteMutation]
  · rcases preDel with e' | (_ | d) <;> simp [runDeleteMutation]

/-- C2 counterexample: on the scenario-B input (a title with surrounding
whitespace, a completed flag) with a `beforeSave` that trims the title,
the value returned by the create mutation carries the UNTRIMMED title, not
the post-transform one the claim predicts, even though the stored payload
carries the trimmed title. -/
theorem addMutation_post_transform_counterexample :
    ((runAddMutation "todos" (some demoTrimTitle) false none none
        "2026-10-11T00:00:00.000Z" (.ok "t1") (.ok ()) demoTodo).result.toOption.bind
      (fun r => alGet r "title")) = some (JVal.str "  Buy milk  ") ∧
    ((runAddMutation "todos" (some demoTrimTitle) false none none
        "2026-10-11T00:00:00.000Z" (.ok "t1") (.ok ()) demoTodo).result.toOption.bind
      (fun r => alGet r "title")) ≠ some (JVal.str "Buy milk") ∧
    ((runAddMutation "todos" (some demoTrimTitle) false none none
        "2026-10-11T00:00:00.000Z" (.ok "t1") (.ok ()) demoTodo).primaryWrites.head?.map
      (fun p => alGet p.2 "title")) = some (some (JVal.str "Buy milk")) := by
  decide

/-- C2 (amended): the value the create mutation returns on success is the
caller's ORIGINAL, pre-transform field set merged with the new
store-assigned identifier; provided the input carried no id, createdAt or
updatedAt field, the result is exactly the identifier binding followed by
the input fields, contains neither server timestamp field, and looks up
the new identifier under the id key. -/
theorem addMutation_returns_pretransform_input :
    ∀ (collectionName : String) (beforeSave : Option (JRecord → JRecord))
      (enableLogging : Bool) (resolver : Option (String → String))
      (userId : Option String) (nowIso newId : String)
      (auditRes : Except String Unit) (data : JRecord),
      hasKey data "id" = false → hasKey data "createdAt" = false →
      hasKey data "updatedAt" = false → (data.map Prod.fst).Nodup →
      (runAddMutation collectionName beforeSave enableLogging resolver userId
          nowIso (.ok newId) auditRes data).result =
        .ok (("id", JVal.str newId) :: data) ∧
      hasKey (("id", JVal.str newId) :: data) "createdAt" = false ∧
      hasKey (("id", JVal.str newId) :: data) "updatedAt" = false ∧
      alGet (("id", JVal.str newId) :: data) "id" = some (JVal.str newId) := by
  intro collectionName beforeSave enableLogging resolver userId nowIso newId
    auditRes data hid hc hu hnd
  have hdisj : ∀ p ∈ data, hasKey [("id", JVal.str newId)] p.1 = false := by
    intro p hp
    have := not_hasKey_of_mem data "id" hid p hp
    simp [hasKey, alGet, Ne.symm this]
  have hres : jsSpread [("id", JVal.str newId)] data = ("id", JVal.str newId) :: data := by
    rw [jsSpread_disjoint data [("id", JVal.str newId)] hdisj hnd]
    rfl
  refine ⟨?_, ?_, ?_, ?_⟩
  · cases enableLogging <;> rcases auditRes with e | u <;>
      simp [runAddMutation, hres]
  · simpa [hasKey, alGet] using hc
  · simpa [hasKey, alGet] using hu
  · simp [alGet]

/-- C2 amended witness: the scenario input with the trimming transform,
evaluated through the amended theorem. -/
theorem addMutation_returns_pretransform_input_witness :
    (runAddMutation "todos" (some demoTrimTitle) false none none "T"
        (.ok "t1") (.ok ()) demoTodo).result =
      .ok (("id", JVal.str "t1") :: demoTodo) :=
  (addMutation_returns_pretransform_input "todos" (some demoTrimTitle) false
    none none "T" "t1" (.ok ()) demoTodo (by decide) (by decide) (by decide)
    (by decide)).1

/-- C3 counterexample: with a non-numeric stored count, `recordReadStats`
does not treat the stored value as 0: it returns NaN rather than 1 and
writes the string NaN back under the read-count key. -/
theorem recordReadStats_nonNumeric_counterexample :
    (recordReadStats [("@romyapps:readCount::todos", "abc")] "todos"
        "2026-10-11T00:00:00.000Z").updated ≠ JSNum.fin 1 0 ∧
    (recordReadStats [("@romyapps:readCount::todos", "abc")] "todos"
        "2026-10-11T00:00:00.000Z").updated = JSNum.nan ∧
    alGet (recordReadStats [("@romyapps:readCount::todos", "abc")] "todos"
        "2026-10-11T00:00:00.000Z").store "@romyapps:readCount::todos" =
      some "NaN" := by
  decide

/-- C3 (amended): `recordReadStats` converts the stored count with JS
`Number`, treating only an ABSENT value as 0 (an absent count becomes 1),
adds 1 in JS arithmetic, writes the resulting count string under the
read-count key and the current ISO timestamp under the last-fetched key,
and returns the updated count. An integer-numeral count `n` in the
exactly-representable double range becomes `n + 1`, written as its decimal
numeral; a NON-NUMERIC stored value (one the JS numeric-string grammar
rejects) propagates as NaN, returned and written back as the string NaN;
other numeric forms (fractions, exponents, hex, Infinity) follow the same
`Number`/add/`String` pipeline, which this embedding evaluates in exact
decimal arithmetic. -/
theorem recordReadStats_amended :
    ∀ (st : Store) (collectionName nowIso : String),
      (alGet st (readCountKey collectionName) = none →
        (recordReadStats st collectionName nowIso).updated = JSNum.fin 1 0 ∧
        alGet (recordReadStats st collectionName nowIso).store
            (readCountKey collectionName) = some "1" ∧
        alGet (recordReadStats st collectionName nowIso).store
            (lastFetchedKey collectionName) = some nowIso) ∧
      (∀ v n, alGet st (readCountKey collectionName) = some v →
        jsNumber v = JSNum.fin n 0 → n.natAbs + 1 ≤ 2 ^ 53 →
        (recordReadStats st collectionName nowIso).updated = JSNum.fin (n + 1) 0 ∧
        alGet (recordReadStats st collectionName nowIso).store
            (readCountKey collectionName) = some (toString (n + 1)) ∧
        alGet (recordReadStats st collectionName nowIso).store
            (lastFetchedKey collectionName) = some nowIso) ∧
      (∀ v, alGet st (readCountKey collectionName) = some v →
        jsNumber v = JSNum.nan →
        (recordReadStats st collectionName nowIso).updated = JSNum.nan ∧
        alGet (recordReadStats st collectionName nowIso).store
            (readCountKey collectionName) = some "NaN" ∧
        alGet (recordReadStats st collectionName nowIso).store
            (lastFetchedKey collectionName) = some nowIso) := by
  intro st collectionName nowIso
  have hne := readCountKey_ne_lastFetchedKey collectionName
  have h0 : jsNumber "0" = JSNum.fin 0 0 := by decide
  refine ⟨?_, ?_, ?_⟩
  · intro habs
    refine ⟨?_, ?_, ?_⟩
    · simp [recordReadStats, habs, h0, jsAdd1, canonFin]
    · simp [recordReadStats, habs, h0, jsAdd1, canonFin,
        alGet_alSet_ne _ _ _ _ (Ne.symm hne), alGet_alSet_self]
      decide
    · simp [recordReadStats, alGet_alSet_self]
  · intro v n hv hn hb
    refine ⟨?_, ?_, ?_⟩
    · simp [recordReadStats, hv, hn, jsAdd1, canonFin]
    · simp [recordReadStats, hv, hn, jsAdd1, canonFin, jsNumToString,
        alGet_alSet_ne _ _ _ _ (Ne.symm hne), alGet_alSet_self]
    · simp [recordReadStats, alGet_alSet_self]
  · intro v hv hn
    refine ⟨?_, ?_, ?_⟩
    · simp [recordReadStats, hv, hn, jsAdd1]
    · simp [recordReadStats, hv, hn, jsAdd1, jsNumToString,
        alGet_alSet_ne _ _ _ _ (Ne.symm hne), alGet_alSet_self]
    · simp [recordReadStats, alGet_alSet_self]

/-- C3 amended witness: an empty storage treats the absent count as 0 and
returns 1; an integer count 41 becomes 42 and is written as "42"; a
non-numeric count returns NaN. -/
theorem recordReadStats_amended_witness :
    (recordReadStats [] "todos" "T").updated = JSNum.fin 1 0 ∧
    alGet (recordReadStats [(readCountKey "todos", "41")] "todos" "T").store
        (readCountKey "todos") = some "42" ∧
    (recordReadStats [(readCountKey "todos", "abc")] "todos" "T").updated =
      JSNum.nan :=
  ⟨((recordReadStats_amended [] "todos" "T").1 rfl).1,
   by
     have h := ((recordReadStats_amended [(readCountKey "todos", "41")] "todos"
       "T").2.1 "41" 41 (by decide) (by decide) (by decide)).2.1
     rw [h]
     decide,
   ((recordReadStats_amended [(readCountKey "todos", "abc")] "todos" "T").2.2
      "abc" (by decide) (by decide)).1⟩

/-- C8: `clearAllCollectionStats` removes exactly the entries whose key
starts with the read-count or the last-fetched namespace, returns the
number of entries removed, and leaves every other key bound to its
previous value. -/
theorem clearAllStats_removes_exactly_namespace :
    ∀ st : Store,
      (clearAllCollectionStats st).1 = st.filter (fun p => !(statsKey p.1)) ∧
      (clearAllCollectionStats st).2 =
        (st.filter (fun p => statsKey p.1)).length ∧
      ∀ k, statsKey k = false →
        alGet (clearAllCollectionStats st).1 k = alGet st k := by
  intro st
  have h1 : (clearAllCollectionStats st).1 =
      st.filter (fun p => !(statsKey p.1)) := by
    show ((st.map Prod.fst).filter statsKey).foldl alRemove st = _
    rw [foldl_alRemove_eq_filter]
    apply List.filter_congr
    intro p hp
    have hmem : p.1 ∈ st.map Prod.fst := List.mem_map_of_mem Prod.fst hp
    by_cases hs : statsKey p.1
    · have hc : ((st.map Prod.fst).filter statsKey).contains p.1 = true := by
        simp only [List.contains_iff_exists_mem_beq]
        exact ⟨p.1, List.mem_filter.mpr ⟨hmem, hs⟩, by simp⟩
      simp only [hc, hs]
    · have hs' : statsKey p.1 = false := by simpa using hs
      have hc : ((st.map Prod.fst).filter statsKey).contains p.1 = false := by
        rcases hcc : ((st.map Prod.fst).filter statsKey).contains p.1 with _ | _
        · rfl
        · exfalso
          rw [List.contains_iff_exists_mem_beq] at hcc
          rcases hcc with ⟨a, ha, hab⟩
          have hpa : p.1 = a := by simpa using hab
          subst hpa
          exact hs (List.mem_filter.mp ha).2
      simp only [hc, hs']
  have hlen : ∀ l : Store,
      ((l.map Prod.fst).filter statsKey).length =
        (l.filter (fun p => statsKey p.1)).length := by
    intro l
    induction l with
    | nil => rfl
    | cons p rest ih =>
        by_cases hs : statsKey p.1 <;>
          simp [List.map_cons, List.filter_cons, hs, ih]
  refine ⟨h1, hlen st, ?_⟩
  · intro k hk
    rw [h1]
    exact alGet_filter_key st statsKey k hk

/-- C8 witness: a storage with one statistics key and one unrelated key;
the unrelated binding survives unchanged and one entry is removed. -/
theorem clearAllStats_removes_exactly_namespace_witness :
    alGet (clearAllCollectionStats
        [("@romyapps:readCount::a", "3"), ("user", "x")]).1 "user" = some "x" ∧
    (clearAllCollectionStats
        [("@romyapps:readCount::a", "3"), ("user", "x")]).2 = 1 := by
  have h := clearAllStats_removes_exactly_namespace
    [("@romyapps:readCount::a", "3"), ("user", "x")]
  constructor
  · rw [h.2.2 "user" (by decide)]
    decide
  · rw [h.2.1]
    decide

end RomyFirestore
